import Mathlib

/-!
Verification of the SkillVouch backend (Express/MySQL CRUD server).

The JavaScript sources (`Backend/server.js`, `Backend/server-production.js`
and the unnamed backend variant) are shallowly embedded below.  JavaScript
values that flow through `JSON.parse` / `JSON.stringify` are modelled by the
`Json` inductive; JS numbers are modelled as integers (the code only ever
stores and compares whole-number scores, ratings and indices at the JSON
level); `undefined` is modelled by `Option.none` where it matters.
`JSON.stringify` and `JSON.parse` are built-ins of the JS runtime, so they are
modelled here by an executable printer `stringifyJson` and parser `parseJson`
over the `Json` AST, following the JSON grammar that `JSON.stringify` emits
(no whitespace, `\uXXXX` escapes for control characters).
-/

/-- A JSON value.  Objects are insertion-ordered field lists, matching the
key order JavaScript object literals produce. -/
inductive Json where
  | null
  | bool (b : Bool)
  | num (n : Int)
  | str (s : String)
  | arr (elems : List Json)
  | obj (fields : List (String × Json))

namespace Json

/-- JavaScript truthiness of a JSON value (`!v` in the source negates this). -/
def truthy : Json → Bool
  | .null => false
  | .bool b => b
  | .num n => n != 0
  | .str s => s != ""
  | .arr _ => true
  | .obj _ => true

end Json

/-- Property lookup `o.k` on an object field list: first field named `k`,
`none` standing for JavaScript `undefined`. -/
def getField (l : List (String × Json)) (k : String) : Option Json :=
  (l.find? (fun p => p.1 = k)).map (fun p => p.2)

/-! ### The printer: model of `JSON.stringify` -/

/-- Lower-case hex digit, as emitted by `JSON.stringify` in `\uXXXX` escapes. -/
def hexDigitChar (n : Nat) : Char :=
  if n < 10 then Char.ofNat (48 + n) else Char.ofNat (87 + n)

/-- How `JSON.stringify` escapes a single character inside a string literal. -/
def escapeChar (c : Char) : List Char :=
  if c = '"' then ['\\', '"']
  else if c = '\\' then ['\\', '\\']
  else if c = Char.ofNat 8 then ['\\', 'b']
  else if c = Char.ofNat 9 then ['\\', 't']
  else if c = Char.ofNat 10 then ['\\', 'n']
  else if c = Char.ofNat 12 then ['\\', 'f']
  else if c = Char.ofNat 13 then ['\\', 'r']
  else if c.toNat < 32 then
    ['\\', 'u', '0', '0', hexDigitChar (c.toNat / 16), hexDigitChar (c.toNat % 16)]
  else [c]

def escList : List Char → List Char
  | [] => []
  | c :: cs => escapeChar c ++ escList cs

/-- A JSON string literal: quote, escaped body, quote. -/
def strLitChars (s : String) : List Char :=
  '"' :: escList s.data ++ ['"']

def digitCharOf (d : Nat) : Char := Char.ofNat (48 + d)

/-- Decimal digits of a positive number, most significant first
(fuel-indexed so that it is structurally recursive; `natToChars` supplies
enough fuel). -/
def natToCharsAux : Nat → Nat → List Char
  | 0, _ => []
  | fuel + 1, n =>
    if n = 0 then [] else natToCharsAux fuel (n / 10) ++ [digitCharOf (n % 10)]

/-- Decimal digits of a natural number, most significant first. -/
def natToChars (n : Nat) : List Char :=
  if n = 0 then ['0'] else natToCharsAux n n

def intToChars (n : Int) : List Char :=
  if n < 0 then '-' :: natToChars n.natAbs else natToChars n.toNat

mutual

/-- Character stream emitted by `JSON.stringify` (default formatting:
no whitespace, fields in insertion order). -/
def stringifyChars : Json → List Char
  | .null => "null".data
  | .bool true => "true".data
  | .bool false => "false".data
  | .num n => intToChars n
  | .str s => strLitChars s
  | .arr l => '[' :: stringifyElems l ++ [']']
  | .obj l => '\x7b' :: stringifyFields l ++ ['\x7d']

def stringifyElems : List Json → List Char
  | [] => []
  | v :: vs =>
    stringifyChars v ++ (if vs.isEmpty then [] else [',']) ++ stringifyElems vs

def stringifyFields : List (String × Json) → List Char
  | [] => []
  | (k, v) :: fs =>
    strLitChars k ++ ':' :: stringifyChars v ++
      (if fs.isEmpty then [] else [',']) ++ stringifyFields fs

end

/-- Model of the built-in `JSON.stringify` on JSON-representable values. -/
def stringifyJson (v : Json) : String := String.mk (stringifyChars v)

/-! ### The parser: model of `JSON.parse` -/

/-- Value of a hex digit character, `none` if not a hex digit. -/
def hexVal (c : Char) : Option Nat :=
  if 48 ≤ c.toNat ∧ c.toNat ≤ 57 then some (c.toNat - 48)
  else if 97 ≤ c.toNat ∧ c.toNat ≤ 102 then some (c.toNat - 87)
  else if 65 ≤ c.toNat ∧ c.toNat ≤ 70 then some (c.toNat - 55)
  else none

/-- Single-character escapes accepted after a backslash. -/
def unescapeChar (e : Char) : Option Char :=
  if e = '"' then some '"'
  else if e = '\\' then some '\\'
  else if e = '/' then some '/'
  else if e = 'b' then some (Char.ofNat 8)
  else if e = 't' then some (Char.ofNat 9)
  else if e = 'n' then some (Char.ofNat 10)
  else if e = 'f' then some (Char.ofNat 12)
  else if e = 'r' then some (Char.ofNat 13)
  else none

/-- Parse the body of a string literal (after the opening quote), returning
the decoded characters and the remaining input. -/
def parseStrBody : List Char → Option (List Char × List Char)
  | [] => none
  | c :: cs =>
    if c = '"' then some ([], cs)
    else if c = '\\' then
      match cs with
      | 'u' :: h1 :: h2 :: h3 :: h4 :: cs2 =>
        match hexVal h1, hexVal h2, hexVal h3, hexVal h4 with
        | some a, some b, some x, some d =>
          (parseStrBody cs2).map
            (fun p => (Char.ofNat (((a * 16 + b) * 16 + x) * 16 + d) :: p.1, p.2))
        | _, _, _, _ => none
      | e :: cs2 =>
        match unescapeChar e with
        | some ch => (parseStrBody cs2).map (fun p => (ch :: p.1, p.2))
        | none => none
      | [] => none
    else (parseStrBody cs).map (fun p => (c :: p.1, p.2))

/-- Split off a maximal run of leading decimal digits. -/
def takeDigits : List Char → List Char × List Char
  | [] => ([], [])
  | c :: cs =>
    if c.isDigit then
      let p := takeDigits cs
      (c :: p.1, p.2)
    else ([], c :: cs)

def digitsToNat (ds : List Char) : Nat :=
  ds.foldl (fun acc c => acc * 10 + (c.toNat - 48)) 0

def parseNat (cs : List Char) : Option (Nat × List Char) :=
  let p := takeDigits cs
  if p.1.isEmpty then none else some (digitsToNat p.1, p.2)

mutual

/-- Fuel-indexed JSON value parser (model of `JSON.parse` on the grammar
`JSON.stringify` emits). -/
def parseVal : Nat → List Char → Option (Json × List Char)
  | 0, _ => none
  | Nat.succ fuel, cs =>
    match cs with
    | 'n' :: 'u' :: 'l' :: 'l' :: rest => some (.null, rest)
    | 't' :: 'r' :: 'u' :: 'e' :: rest => some (.bool true, rest)
    | 'f' :: 'a' :: 'l' :: 's' :: 'e' :: rest => some (.bool false, rest)
    | '"' :: rest =>
      (parseStrBody rest).map (fun p => (.str (String.mk p.1), p.2))
    | '[' :: rest => (parseArrRest fuel rest).map (fun p => (.arr p.1, p.2))
    | '\x7b' :: rest => (parseObjRest fuel rest).map (fun p => (.obj p.1, p.2))
    | '-' :: rest =>
      (parseNat rest).map (fun p => (.num (-(p.1 : Int)), p.2))
    | c :: rest =>
      if c.isDigit then
        (parseNat (c :: rest)).map (fun p => (.num (p.1 : Int), p.2))
      else none
    | [] => none

/-- Parse array elements after the opening bracket, up to the closing one. -/
def parseArrRest : Nat → List Char → Option (List Json × List Char)
  | 0, _ => none
  | Nat.succ fuel, cs =>
    match cs with
    | ']' :: rest => some ([], rest)
    | _ =>
      match parseVal fuel cs with
      | some (v, rest) =>
        match rest with
        | ',' :: rest2 => (parseArrRest fuel rest2).map (fun p => (v :: p.1, p.2))
        | ']' :: rest2 => some ([v], rest2)
        | _ => none
      | none => none

/-- Parse object fields after the opening brace, up to the closing one. -/
def parseObjRest : Nat → List Char → Option (List (String × Json) × List Char)
  | 0, _ => none
  | Nat.succ fuel, cs =>
    match cs with
    | '\x7d' :: rest => some ([], rest)
    | '"' :: rest =>
      match parseStrBody rest with
      | some (k, rest1) =>
        match rest1 with
        | ':' :: rest2 =>
          match parseVal fuel rest2 with
          | some (v, rest3) =>
            match rest3 with
            | ',' :: rest4 =>
              (parseObjRest fuel rest4).map
                (fun p => ((String.mk k, v) :: p.1, p.2))
            | '\x7d' :: rest4 => some ([(String.mk k, v)], rest4)
            | _ => none
          | none => none
        | _ => none
      | none => none
    | _ => none

end

/-- Model of the built-in `JSON.parse`: parse the whole string as one value.
Returns `none` where `JSON.parse` would throw. -/
def parseJson (s : String) : Option Json :=
  match parseVal (s.length + 1) s.data with
  | some (v, []) => some v
  | _ => none

/-! ### Round-trip: `parseJson` inverts `stringifyJson` -/

/-- The remaining input does not begin with a digit (so the maximal-munch
number parser stops exactly at a printed number's end). -/
def noDigitStart : List Char → Bool
  | [] => true
  | c :: _ => !c.isDigit

theorem digitCharOf_isDigit : ∀ d, d < 10 → (digitCharOf d).isDigit = true := by
  decide

theorem digitCharOf_toNat : ∀ d, d < 10 → (digitCharOf d).toNat = 48 + d := by
  decide

theorem natToCharsAux_digits :
    ∀ fuel n c, c ∈ natToCharsAux fuel n → c.isDigit = true := by
  intro fuel
  induction fuel with
  | zero => intro n c h; simp [natToCharsAux] at h
  | succ fuel ih =>
    intro n c h
    by_cases hn : n = 0
    · simp [natToCharsAux, hn] at h
    · simp only [natToCharsAux, if_neg hn, List.mem_append, List.mem_singleton] at h
      rcases h with h | h
      · exact ih _ _ h
      · subst h; exact digitCharOf_isDigit _ (Nat.mod_lt _ (by norm_num))

theorem natToChars_digits : ∀ n c, c ∈ natToChars n → c.isDigit = true := by
  intro n c h
  by_cases hn : n = 0
  · simp [natToChars, hn] at h; subst h; decide
  · simp only [natToChars, if_neg hn] at h
    exact natToCharsAux_digits _ _ _ h

theorem natToChars_ne_nil (n : Nat) : natToChars n ≠ [] := by
  by_cases hn : n = 0
  · simp [natToChars, hn]
  · obtain ⟨f, rfl⟩ : ∃ f, n = f + 1 := ⟨n - 1, by omega⟩
    simp [natToChars, natToCharsAux, hn]

theorem foldl_natToCharsAux :
    ∀ fuel n acc, n ≤ fuel →
      (natToCharsAux fuel n).foldl (fun a c => a * 10 + (c.toNat - 48)) acc
        = acc * 10 ^ (natToCharsAux fuel n).length + n := by
  intro fuel
  induction fuel with
  | zero =>
    intro n acc h
    interval_cases n
    simp [natToCharsAux]
  | succ fuel ih =>
    intro n acc h
    by_cases hn : n = 0
    · simp [natToCharsAux, hn]
    · have hdiv : n / 10 ≤ fuel := by
        have : n / 10 < n := Nat.div_lt_self (by omega) (by norm_num)
        omega
      simp only [natToCharsAux, if_neg hn, List.foldl_append, List.foldl_cons,
        List.foldl_nil, List.length_append, List.length_cons, List.length_nil]
      rw [ih _ acc hdiv]
      rw [digitCharOf_toNat _ (Nat.mod_lt _ (by norm_num))]
      have hmod := Nat.div_add_mod n 10
      ring_nf
      omega

theorem digitsToNat_natToChars (n : Nat) : digitsToNat (natToChars n) = n := by
  by_cases hn : n = 0
  · simp [natToChars, hn, digitsToNat]
  · simp only [natToChars, if_neg hn, digitsToNat]
    rw [foldl_natToCharsAux n n 0 le_rfl]
    simp

theorem takeDigits_append :
    ∀ ds r, (∀ c ∈ ds, c.isDigit = true) → noDigitStart r = true →
      takeDigits (ds ++ r) = (ds, r) := by
  intro ds
  induction ds with
  | nil =>
    intro r _ hr
    cases r with
    | nil => rfl
    | cons c t =>
      simp only [noDigitStart, Bool.not_eq_true'] at hr
      simp [takeDigits, hr]
  | cons c cs ih =>
    intro r hds hr
    have hc : c.isDigit = true := hds c (by simp)
    simp only [List.cons_append, takeDigits, hc, if_true]
    rw [show cs.append r = cs ++ r from rfl, ih r (fun x hx => hds x (by simp [hx])) hr]

theorem parseNat_natToChars (n : Nat) (r : List Char) (hr : noDigitStart r = true) :
    parseNat (natToChars n ++ r) = some (n, r) := by
  simp only [parseNat, takeDigits_append _ _ (natToChars_digits n) hr]
  have hne := natToChars_ne_nil n
  simp [List.isEmpty_iff, hne, digitsToNat_natToChars]

theorem hexVal_hexDigitChar : ∀ m, m < 16 → hexVal (hexDigitChar m) = some m := by
  decide

theorem parseStrBody_escapeChar (c : Char) (r : List Char) :
    parseStrBody (escapeChar c ++ r)
      = (parseStrBody r).map (fun p => (c :: p.1, p.2)) := by
  unfold escapeChar
  by_cases h1 : c = '"'
  · subst h1; rfl
  · rw [if_neg h1]
    by_cases h2 : c = '\\'
    · subst h2; rfl
    · rw [if_neg h2]
      by_cases h3 : c = Char.ofNat 8
      · subst h3; rfl
      · rw [if_neg h3]
        by_cases h4 : c = Char.ofNat 9
        · subst h4; rfl
        · rw [if_neg h4]
          by_cases h5 : c = Char.ofNat 10
          · subst h5; rfl
          · rw [if_neg h5]
            by_cases h6 : c = Char.ofNat 12
            · subst h6; rfl
            · rw [if_neg h6]
              by_cases h7 : c = Char.ofNat 13
              · subst h7; rfl
              · rw [if_neg h7]
                by_cases h8 : c.toNat < 32
                · rw [if_pos h8]
                  have hdiv : c.toNat / 16 < 16 := by omega
                  have hmod : c.toNat % 16 < 16 := Nat.mod_lt _ (by norm_num)
                  simp only [List.cons_append, List.nil_append, parseStrBody,
                    if_neg (by decide : ¬ ('\\' : Char) = '"'), if_pos rfl]
                  rw [hexVal_hexDigitChar _ hdiv, hexVal_hexDigitChar _ hmod]
                  simp only [show hexVal '0' = some 0 from by decide]
                  have hc : Char.ofNat (((0 * 16 + 0) * 16 + c.toNat / 16) * 16
                      + c.toNat % 16) = c := by
                    rw [show ((0 * 16 + 0) * 16 + c.toNat / 16) * 16
                        + c.toNat % 16 = c.toNat by omega, Char.ofNat_toNat]
                  simp only [hc]
                  simp
                · rw [if_neg h8]
                  simp only [List.cons_append, List.nil_append]
                  rw [parseStrBody.eq_def]
                  simp only [if_neg h1, if_neg h2]

theorem parseStrBody_escList (l : List Char) (r : List Char) :
    parseStrBody (escList l ++ '"' :: r) = some (l, r) := by
  induction l with
  | nil =>
    simp only [escList, List.nil_append]
    rw [parseStrBody.eq_def]
    simp
  | cons c cs ih =>
    simp only [escList, List.append_assoc, parseStrBody_escapeChar, ih]
    rfl

theorem isDigit_toNat_bounds (c : Char) (h : c.isDigit = true) :
    48 ≤ c.toNat ∧ c.toNat ≤ 57 := by
  simp [Char.isDigit, Char.le_def] at h
  exact h

theorem natToChars_head_digit (n : Nat) (c : Char) (t : List Char)
    (h : natToChars n = c :: t) : c.isDigit = true :=
  natToChars_digits n c (by rw [h]; simp)

theorem stringify_ne_nil : ∀ v : Json, stringifyChars v ≠ [] := by
  intro v
  cases v with
  | null => simp [stringifyChars]
  | bool b => cases b <;> simp [stringifyChars]
  | num n =>
    show intToChars n ≠ []
    unfold intToChars
    by_cases hn : n < 0
    · simp [hn]
    · simp only [if_neg hn]
      exact natToChars_ne_nil _
  | str s => simp [stringifyChars, strLitChars]
  | arr l => simp [stringifyChars]
  | obj l => simp [stringifyChars]

/-- The first character a printed value starts with is never a closing
bracket (needed so the element parser does not mistake a value for the end
of an array). -/
theorem stringify_head :
    ∀ v : Json, ∃ c t, stringifyChars v = c :: t ∧ ¬ c = ']' := by
  intro v
  cases v with
  | null => exact ⟨'n', _, rfl, by decide⟩
  | bool b =>
    cases b with
    | false => exact ⟨'f', _, rfl, by decide⟩
    | true => exact ⟨'t', _, rfl, by decide⟩
  | num n =>
    show ∃ c t, intToChars n = c :: t ∧ ¬ c = ']'
    unfold intToChars
    by_cases hn : n < 0
    · exact ⟨'-', _, by rw [if_pos hn], by decide⟩
    · rw [if_neg hn]
      obtain ⟨c, t, hct⟩ := List.exists_cons_of_ne_nil (natToChars_ne_nil n.toNat)
      refine ⟨c, t, hct, ?_⟩
      have hd := natToChars_head_digit _ _ _ hct
      intro hc
      rw [hc] at hd
      exact absurd hd (by decide)
  | str s => exact ⟨'"', _, rfl, by decide⟩
  | arr l => exact ⟨'[', _, rfl, by decide⟩
  | obj l => exact ⟨'\x7b', _, rfl, by decide⟩

theorem stringify_length_pos (v : Json) : 1 ≤ (stringifyChars v).length := by
  obtain ⟨c, t, hct, _⟩ := stringify_head v
  rw [hct]
  simp

theorem strLit_length (k : String) :
    (strLitChars k).length = (escList k.data).length + 2 := by
  simp [strLitChars]

/-! Parser shape facts used to drive the round-trip induction. -/

theorem parseVal_minus (fuel : Nat) (r : List Char) :
    parseVal (fuel + 1) ('-' :: r)
      = (parseNat r).map (fun p => (Json.num (-(p.1 : Int)), p.2)) := rfl

theorem parseVal_digitChar (fuel : Nat) (c : Char) (t : List Char)
    (h : c.isDigit = true) :
    parseVal (fuel + 1) (c :: t)
      = (parseNat (c :: t)).map (fun p => (Json.num (p.1 : Int), p.2)) := by
  obtain ⟨h1, h2⟩ := isDigit_toNat_bounds c h
  have hc : c = digitCharOf (c.toNat - 48) := by
    unfold digitCharOf
    rw [show 48 + (c.toNat - 48) = c.toNat by omega, Char.ofNat_toNat]
  have hd : c.toNat - 48 < 10 := by omega
  rw [hc]
  revert hd
  generalize (c.toNat - 48) = d
  intro hd
  interval_cases d <;> rfl

theorem parseArrRest_cons (fuel : Nat) (c : Char) (t : List Char)
    (h : ¬ c = ']') :
    parseArrRest (fuel + 1) (c :: t)
      = (match parseVal fuel (c :: t) with
        | some (v, rest) =>
          match rest with
          | ',' :: rest2 => (parseArrRest fuel rest2).map (fun p => (v :: p.1, p.2))
          | ']' :: rest2 => some ([v], rest2)
          | _ => none
        | none => none) := by
  rw [parseArrRest.eq_def]
  split
  · rename_i heq
    exact absurd (by injection heq) h
  · rename_i f heq
    obtain rfl : f = fuel := by omega
    split
    · rename_i heq2
      exact absurd (by injection heq2) h
    · rfl

theorem parseObjRest_key (fuel : Nat) (r : List Char) :
    parseObjRest (fuel + 1) ('"' :: r)
      = (match parseStrBody r with
        | some (k, rest1) =>
          match rest1 with
          | ':' :: rest2 =>
            match parseVal fuel rest2 with
            | some (v, rest3) =>
              match rest3 with
              | ',' :: rest4 =>
                (parseObjRest fuel rest4).map
                  (fun p => ((String.mk k, v) :: p.1, p.2))
              | '\x7d' :: rest4 => some ([(String.mk k, v)], rest4)
              | _ => none
            | none => none
          | _ => none
        | none => none) := rfl

/-- Master lemma: with enough fuel, parsing a printed value (followed by any
remainder that does not begin with a digit) returns exactly that value and
the remainder; similarly for printed element and field lists followed by
their closing bracket. -/
theorem roundtrip_master : ∀ fuel : Nat,
    (∀ v r, (stringifyChars v).length ≤ fuel → noDigitStart r = true →
        parseVal fuel (stringifyChars v ++ r) = some (v, r)) ∧
    (∀ l r, (stringifyElems l).length + 1 ≤ fuel →
        parseArrRest fuel (stringifyElems l ++ ']' :: r) = some (l, r)) ∧
    (∀ l r, (stringifyFields l).length + 1 ≤ fuel →
        parseObjRest fuel (stringifyFields l ++ '\x7d' :: r) = some (l, r)) := by
  intro fuel
  induction fuel with
  | zero =>
    refine ⟨?_, ?_, ?_⟩
    · intro v r hlen hr
      have := stringify_length_pos v
      omega
    · intro l r hlen
      omega
    · intro l r hlen
      omega
  | succ fuel ih =>
    obtain ⟨ihV, ihA, ihO⟩ := ih
    refine ⟨?_, ?_, ?_⟩
    · intro v r hlen hr
      cases v with
      | null => rfl
      | bool b => cases b <;> rfl
      | num n =>
        show parseVal (fuel + 1) (intToChars n ++ r) = some (.num n, r)
        by_cases hn : n < 0
        · simp only [intToChars, if_pos hn, List.cons_append]
          rw [parseVal_minus, parseNat_natToChars _ _ hr]
          have he : (-(n.natAbs : Int)) = n := by omega
          simp only [Option.map_some', he]
        · simp only [intToChars, if_neg hn]
          obtain ⟨c, t, hct⟩ := List.exists_cons_of_ne_nil (natToChars_ne_nil n.toNat)
          have hcd := natToChars_head_digit _ _ _ hct
          rw [hct, List.cons_append, parseVal_digitChar fuel c (t ++ r) hcd,
            ← List.cons_append, ← hct, parseNat_natToChars _ _ hr]
          have he : ((n.toNat : Int)) = n := by omega
          simp only [Option.map_some', he]
      | str s =>
        show parseVal (fuel + 1) (strLitChars s ++ r) = some (.str s, r)
        simp only [strLitChars, List.cons_append, List.append_assoc,
          List.singleton_append]
        show (parseStrBody (escList s.data ++ '"' :: r)).map
            (fun p => (Json.str (String.mk p.1), p.2)) = _
        rw [parseStrBody_escList]
        rfl
      | arr l =>
        show parseVal (fuel + 1) ('[' :: stringifyElems l ++ [']'] ++ r)
            = some (.arr l, r)
        simp only [List.cons_append, List.append_assoc, List.singleton_append]
        show (parseArrRest fuel (stringifyElems l ++ ']' :: r)).map
            (fun p => (Json.arr p.1, p.2)) = _
        rw [ihA l r (by
          have h2 : (stringifyChars (Json.arr l)).length ≤ fuel + 1 := hlen
          simp only [stringifyChars, List.length_cons, List.length_append,
            List.length_singleton] at h2
          omega)]
        rfl
      | obj l =>
        show parseVal (fuel + 1) ('\x7b' :: stringifyFields l ++ ['\x7d'] ++ r)
            = some (.obj l, r)
        simp only [List.cons_append, List.append_assoc, List.singleton_append]
        show (parseObjRest fuel (stringifyFields l ++ '\x7d' :: r)).map
            (fun p => (Json.obj p.1, p.2)) = _
        rw [ihO l r (by
          have h2 : (stringifyChars (Json.obj l)).length ≤ fuel + 1 := hlen
          simp only [stringifyChars, List.length_cons, List.length_append,
            List.length_singleton] at h2
          omega)]
        rfl
    · intro l r hlen
      cases l with
      | nil => rfl
      | cons v vs =>
        have hlen' := hlen
        simp only [stringifyElems, List.length_append, apply_ite List.length,
          List.length_nil, List.length_singleton] at hlen'
        have hv1 := stringify_length_pos v
        obtain ⟨c, t, hct, hcne⟩ := stringify_head v
        rw [show stringifyElems (v :: vs)
            = stringifyChars v
              ++ ((if vs.isEmpty then [] else [',']) ++ stringifyElems vs)
            from by simp [stringifyElems]]
        simp only [List.append_assoc]
        rw [hct, List.cons_append, parseArrRest_cons fuel c _ hcne,
          ← List.cons_append, ← hct]
        by_cases hvs : vs = []
        · subst hvs
          simp only [List.isEmpty_nil, if_true, stringifyElems, List.nil_append]
          rw [ihV v (']' :: r) (by simp at hlen'; omega) (by rfl)]
          rfl
        · rw [if_neg (by simpa using hvs)]
          simp only [List.cons_append, List.nil_append]
          rw [ihV v (',' :: (stringifyElems vs ++ ']' :: r)) (by
            rw [if_neg (by simpa using hvs)] at hlen'
            omega) (by rfl)]
          show (parseArrRest fuel (stringifyElems vs ++ ']' :: r)).map
            (fun p => (v :: p.1, p.2)) = _
          rw [ihA vs r (by
            rw [if_neg (by simpa using hvs)] at hlen'
            omega)]
          rfl
    · intro l r hlen
      cases l with
      | nil => rfl
      | cons kv fs =>
        obtain ⟨k, v⟩ := kv
        have hlen' := hlen
        simp only [stringifyFields, strLitChars, List.length_append,
          List.length_cons, apply_ite List.length, List.length_nil,
          List.length_singleton] at hlen'
        have hv1 := stringify_length_pos v
        rw [show stringifyFields ((k, v) :: fs)
            = '"' :: (escList k.data ++ '"' :: (':' :: (stringifyChars v
                ++ ((if fs.isEmpty then [] else [',']) ++ stringifyFields fs))))
            from by simp [stringifyFields, strLitChars]]
        simp only [List.cons_append, List.append_assoc]
        rw [parseObjRest_key]
        rw [parseStrBody_escList]
        show (match parseVal fuel (stringifyChars v
            ++ ((if fs.isEmpty then [] else [','])
                ++ (stringifyFields fs ++ '\x7d' :: r))) with
          | some (v, rest3) =>
            match rest3 with
            | ',' :: rest4 =>
              (parseObjRest fuel rest4).map
                (fun p => ((String.mk k.data, v) :: p.1, p.2))
            | '\x7d' :: rest4 => some ([(String.mk k.data, v)], rest4)
            | _ => none
          | none => none) = some ((k, v) :: fs, r)
        by_cases hfs : fs = []
        · subst hfs
          simp only [List.isEmpty_nil, if_true, stringifyFields, List.nil_append]
          rw [ihV v ('\x7d' :: r) (by omega) (by rfl)]
          rfl
        · rw [if_neg (by simpa using hfs)]
          simp only [List.cons_append, List.nil_append]
          rw [if_neg (by simpa using hfs)] at hlen'
          rw [ihV v (',' :: (stringifyFields fs ++ '\x7d' :: r)) (by omega) (by rfl)]
          show (parseObjRest fuel (stringifyFields fs ++ '\x7d' :: r)).map
              (fun p => ((String.mk k.data, v) :: p.1, p.2)) = _
          rw [ihO fs r (by omega)]
          rfl

/-- `JSON.parse` inverts `JSON.stringify` on every JSON value. -/
theorem parseJson_stringifyJson (v : Json) :
    parseJson (stringifyJson v) = some v := by
  unfold parseJson stringifyJson
  have h := (roundtrip_master ((stringifyChars v).length + 1)).1 v [] (by omega) rfl
  rw [List.append_nil] at h
  have hlen : (String.mk (stringifyChars v)).length = (stringifyChars v).length := rfl
  have hdata : (String.mk (stringifyChars v)).data = stringifyChars v := rfl
  rw [hlen, hdata, h]

/-! ### JSON safety helpers of the backend (`safeParseJSON`, skills
validation), from `Backend/server.js` lines 235-268 and the unnamed
backend variant. -/

/-- A JavaScript value as read from a (possibly NULL) database text column
or passed to `safeParseJSON`: `null`, `undefined`, or a string. -/
inductive JSVal where
  | null
  | undef
  | str (s : String)
deriving DecidableEq

/-- `safeParseJSON(value, defaultValue)`: returns the default on `null`,
`undefined` and the empty string, otherwise `JSON.parse`, falling back to
the default when parsing throws. -/
def safeParseJSON (value : JSVal) (defaultValue : Json) : Json :=
  match value with
  | .null => defaultValue
  | .undef => defaultValue
  | .str s => if s = "" then defaultValue else (parseJson s).getD defaultValue

/-- Truthiness of a possibly-`undefined` JSON value. -/
def optTruthy : Option Json → Bool
  | some j => j.truthy
  | none => false

/-- Model of the JavaScript `String.prototype.trim` builtin: strip leading
and trailing whitespace. -/
def jsTrim (s : String) : String :=
  String.mk (((s.data.dropWhile Char.isWhitespace).reverse.dropWhile
    Char.isWhitespace).reverse)

/-- `validateSkill(skill)` from `Backend/server.js` lines 247-261: requires
an object (in JavaScript arrays also have `typeof === 'object'`) with a
non-empty string `name`, and normalises the remaining fields.  Thrown
errors are modelled with `Except.error` carrying the message. -/
def validateSkill (skill : Json) : Except String Json :=
  match skill with
  | .obj fields =>
    match getField fields "name" with
    | some (.str s) =>
      if s = "" then .error "Skill must have a valid name"
      else
        .ok (.obj [
          ("name", .str (jsTrim s)),
          ("verified", .bool (match getField fields "verified" with
            | some (.bool true) => true
            | _ => false)),
          ("level",
            match getField fields "level" with
            | some l => if l.truthy then l else .str "beginner"
            | none => .str "beginner"),
          ("experienceYears",
            match getField fields "experienceYears" with
            | some e => if e.truthy then e else .num 0
            | none => .num 0),
          ("availability",
            match getField fields "availability" with
            | some (.arr a) => .arr a
            | _ => .arr [])])
    | some _ => .error "Skill must have a valid name"
    | none => .error "Skill must have a valid name"
  | .arr _ =>
    -- a JS array passes the `typeof skill === 'object'` test but has no
    -- `name` property, so validation throws on the name check
    .error "Skill must have a valid name"
  | _ => .error "Skill must be an object"

/-- `validateSkillsArray(skills)` from `Backend/server.js` lines 263-268. -/
def validateSkillsArray (skills : Json) : Except String Json :=
  match skills with
  | .arr l => (l.mapM validateSkill).map Json.arr
  | _ => .error "Skills must be an array"

/-! ### Users table rows and the user mappers -/

/-- A row of the `users` table (schema from `createTable 'users'`):
`password`, `avatar`, `bio`, `discord_link` are nullable VARCHAR/TEXT
columns, the two skills columns are JSON text (or NULL), `rating` is a
DECIMAL modelled as a rational. -/
structure UserRow where
  id : String
  name : String
  email : String
  password : Option String
  avatar : Option String
  bio : Option String
  skills_known : JSVal
  skills_to_learn : JSVal
  discord_link : Option String
  rating : Rat
deriving DecidableEq

/-- The camel-cased user object the API returns. -/
structure UserObj where
  id : String
  name : String
  email : String
  password : Option String
  avatar : Option String
  skillsKnown : Json
  skillsToLearn : Json
  bio : String
  discordLink : Option String
  rating : Rat

/-- `x || d` on a nullable string (JavaScript falsiness: `null`,
`undefined` and `''` select the default). -/
def jsOr (v : Option String) (d : String) : String :=
  match v with
  | some s => if s = "" then d else s
  | none => d

/-- `x || undefined` on a nullable string. -/
def jsOrUndef (v : Option String) : Option String :=
  match v with
  | some s => if s = "" then none else some s
  | none => none

/-- `mapUserRow(row)` from `Backend/server.js` lines 270-283 (primary
variant; uses `safeParseJSON` with `[]` defaults). -/
def mapUserRow (row : UserRow) : UserObj :=
  { id := row.id
    name := row.name
    email := row.email
    password := row.password
    avatar := row.avatar
    skillsKnown := safeParseJSON row.skills_known (.arr [])
    skillsToLearn := safeParseJSON row.skills_to_learn (.arr [])
    bio := jsOr row.bio ""
    discordLink := jsOrUndef row.discord_link
    rating := row.rating }

/-- `row.skills_known ? JSON.parse(row.skills_known) : []` — `none` when
`JSON.parse` throws. -/
def parseSkillsCol (v : JSVal) : Option Json :=
  match v with
  | .str s => if s = "" then some (.arr []) else parseJson s
  | _ => some (.arr [])

/-- `mapUserRow(row)` from `Backend/server-production.js` lines 52-65: the
production variant calls `JSON.parse` directly on a truthy skills column,
so a parse failure propagates as a thrown exception (`none` here). -/
def mapUserRowProd (row : UserRow) : Option UserObj :=
  match parseSkillsCol row.skills_known, parseSkillsCol row.skills_to_learn with
  | some k, some l =>
    some
      { id := row.id
        name := row.name
        email := row.email
        password := row.password
        avatar := row.avatar
        skillsKnown := k
        skillsToLearn := l
        bio := jsOr row.bio ""
        discordLink := jsOrUndef row.discord_link
        rating := row.rating }
  | _, _ => none

/-! ### The `query` wrapper of the primary variant
(`Backend/server.js` lines 29-49). -/

/-- Number of `?` placeholders in a SQL string (the source counts them with
the regex `/\?/g`, which matches each `?` character). -/
def countPlaceholders (sql : String) : Nat :=
  (sql.data.filter (fun c => c = '?')).length

/-- The guard logic of `query(sql, params)`: reject when the connection
flag is down, then reject on a placeholder/parameter count mismatch;
only then is the statement executed against the pool (`Except.ok ()`). -/
def query (dbConnected : Bool) (sql : String) (paramsLen : Nat) :
    Except String Unit :=
  if !dbConnected then
    .error "Database connection unavailable"
  else if countPlaceholders sql ≠ paramsLen then
    .error ("Parameter count mismatch: expected "
      ++ toString (countPlaceholders sql) ++ ", got " ++ toString paramsLen)
  else
    .ok ()

/-! ### Connection-health monitor (`Backend/server.js` lines 25-80,
`Backend/server-production.js` lines 78-128). -/

/-- Module-level connection bookkeeping. -/
structure DbState where
  dbConnected : Bool
  dbConnectionAttempts : Nat
deriving DecidableEq

def maxDbRetries : Nat := 5

/-- One run of `checkDatabaseConnection()`.  `checkOk` abstracts whether
the ping/SELECT against the pool succeeds.  Returns the new module state,
the delay of the retry this run schedules via `setTimeout` (if any), and
the boolean the function returns. -/
def checkDatabaseConnection (s : DbState) (checkOk : Bool) :
    DbState × Option Nat × Bool :=
  let attempts := s.dbConnectionAttempts + 1
  if checkOk then
    ({ dbConnected := true, dbConnectionAttempts := attempts }, none, true)
  else
    ({ dbConnected := false, dbConnectionAttempts := attempts },
      if attempts < maxDbRetries then some 5000 else none,
      false)

/-- The delays scheduled over a run of `n` consecutive failing checks. -/
def failuresRun : Nat → DbState → List Nat
  | 0, _ => []
  | n + 1, s =>
    match checkDatabaseConnection s false with
    | (s2, some d, _) => d :: failuresRun n s2
    | (s2, none, _) => failuresRun n s2

/-! ### Periodic polling in the production variant
(`Backend/server-production.js` lines 119-168). -/

def dbPollIntervalMs : Nat := 30000
def mistralPollIntervalMs : Nat := 60000

inductive TransitionLog where
  | lost
  | restored
deriving DecidableEq

/-- The body of the 30-second `setInterval`: remember `wasConnected`, run
`checkDatabaseConnection`, and log a transition message exactly on a
connectivity change. -/
def dbPollStep (s : DbState) (checkOk : Bool) :
    DbState × Option Nat × Bool × Option TransitionLog :=
  let wasConnected := s.dbConnected
  match checkDatabaseConnection s checkOk with
  | (s2, retry, ret) =>
    let log :=
      if wasConnected && !s2.dbConnected then some TransitionLog.lost
      else if !wasConnected && s2.dbConnected then some TransitionLog.restored
      else none
    (s2, retry, ret, log)

/-- One run of `testMistralConnection()`: sets `mistralConnected` to the
outcome of the API probe and returns that outcome (the previous flag value
is read only to decide whether to log the success banner). -/
def testMistralConnection (_mistralConnected : Bool) (checkOk : Bool) :
    Bool × Bool :=
  if checkOk then (true, true) else (false, false)

/-! ### HTTP handler models -/

/-- The outcome of a handler: a JSON body with status 200 or 201, or an
error status. -/
inductive Resp (α : Type) where
  | ok (body : α)
  | created (body : α)
  | err (status : Nat)

def Resp.status {α : Type} : Resp α → Nat
  | .ok _ => 200
  | .created _ => 201
  | .err s => s

/-- Rows returned by `SELECT * FROM users WHERE id = ?`. -/
def selectUsersById (db : List UserRow) (id : String) : List UserRow :=
  db.filter (fun r => r.id = id)

/-- Rows returned by `SELECT * FROM users WHERE email = ?`. -/
def selectUsersByEmail (db : List UserRow) (email : String) : List UserRow :=
  db.filter (fun r => r.email = email)

/-- `GET /api/users` (`Backend/server.js` lines 346-354): map every row
through `mapUserRow`; the `query` throw when the connection flag is down is
mapped to the 500 of the catch block. -/
def getUsersHandler (dbConnected : Bool) (db : List UserRow) :
    Resp (List UserObj) :=
  if dbConnected then .ok (db.map mapUserRow) else .err 500

/-- `GET /api/users/:id` (`Backend/server.js` lines 356-368). -/
def getUserByIdHandler (dbConnected : Bool) (db : List UserRow) (id : String) :
    Resp UserObj :=
  if dbConnected then
    match (selectUsersById db id).head? with
    | none => .err 404
    | some row => .ok (mapUserRow row)
  else .err 500

/-! ### `POST /api/users` (`Backend/server.js` lines 437-475,
`Backend/server-production.js` lines 465-506). -/

/-- The request body of `POST /api/users` / `PUT /api/users/:id`; absent
fields are `none`. -/
structure UserBody where
  id : Option String
  name : Option String
  email : Option String
  password : Option String
  bio : Option String
  skillsKnown : Option Json
  skillsToLearn : Option Json
  discordLink : Option String

/-- JavaScript falsiness of a possibly-absent string (absent, or empty). -/
def falsyStr : Option String → Bool
  | none => true
  | some s => s = ""

/-- The row inserted by the INSERT of `POST /api/users`, given the two
validated skills arrays (`avatar` is not in the column list, so it is
NULL; `rating` is inserted as 5.0). -/
def mkUserRow (body : UserBody) (k l : Json) : UserRow :=
  { id := body.id.getD ""
    name := body.name.getD ""
    email := body.email.getD ""
    password := some (jsOr body.password "")
    avatar := none
    bio := some (jsOr body.bio "")
    skills_known := .str (stringifyJson k)
    skills_to_learn := .str (stringifyJson l)
    discord_link := some (jsOr body.discordLink "")
    rating := 5 }

/-- `ER_DUP_ENTRY`: the INSERT hits the `id` primary key or the unique
`email` index. -/
def insertDup (db : List UserRow) (body : UserBody) : Bool :=
  db.any (fun r => r.id = body.id.getD "" || r.email = body.email.getD "")

/-- `skillsKnown ? validateSkillsArray(skillsKnown) : []` — the validation
step applied to a request skills field (skipped when the field is falsy). -/
def postValidate (v : Option Json) : Except String Json :=
  if optTruthy v then validateSkillsArray (v.getD .null) else .ok (.arr [])

/-- `POST /api/users`: 400 on missing id/name/email, validate supplied
truthy skills (validation errors contain `Skill`, so the catch block
answers 400), 409 on duplicate key, then re-SELECT the inserted row and
answer 201 with its `mapUserRow` image. -/
def postUsersHandler (db : List UserRow) (body : UserBody) :
    Resp UserObj × List UserRow :=
  if falsyStr body.id || falsyStr body.name || falsyStr body.email then
    (.err 400, db)
  else
    match postValidate body.skillsKnown, postValidate body.skillsToLearn with
    | .ok k, .ok l =>
      if insertDup db body then (.err 409, db)
      else
        match (selectUsersById (db ++ [mkUserRow body k l])
            (body.id.getD "")).head? with
        | some row => (.created (mapUserRow row), db ++ [mkUserRow body k l])
        | none => (.err 500, db ++ [mkUserRow body k l])
    | _, _ => (.err 400, db)

/-! ### `PUT /api/users/:id` (`Backend/server.js` lines 370-435,
`Backend/server-production.js` lines 566-638): the SQL text of the
update branch. -/

/-- The `updateFields` array as assembled by the handler: the five fixed
assignments, optionally `password = ?`, and then — pushed into the same
array — the `WHERE id = ?` clause. -/
def putUpdateFields (hasPassword : Bool) : List String :=
  (["name = ?", "bio = ?", "skills_known = ?", "skills_to_learn = ?",
      "discord_link = ?"]
    ++ (if hasPassword then ["password = ?"] else []))
    ++ ["WHERE id = ?"]

/-- The SQL text passed to `query`:
`` `UPDATE users SET ${updateFields.join(', ')}` ``. -/
def putUpdateSql (hasPassword : Bool) : String :=
  "UPDATE users SET " ++ String.intercalate ", " (putUpdateFields hasPassword)

/-- The number of values in `updateValues` when the query runs: the five
fixed values, the optional password, and the id. -/
def putUpdateValuesLen (hasPassword : Bool) : Nat :=
  5 + (if hasPassword then 1 else 0) + 1

/-- The SQL shape the specification describes: comma-separated SET
assignments followed (without a comma) by `WHERE id = ?`. -/
def claimedPutUpdateSql (hasPassword : Bool) : String :=
  "UPDATE users SET "
    ++ String.intercalate ", "
      (["name = ?", "bio = ?", "skills_known = ?", "skills_to_learn = ?",
          "discord_link = ?"]
        ++ (if hasPassword then ["password = ?"] else []))
    ++ " WHERE id = ?"

/-- The row inserted by the insert branch of `PUT /api/users/:id` (user id
taken from the URL parameter, `name || ''` etc. for the body fields). -/
def mkPutInsertRow (id : String) (body : UserBody) (k l : Json) : UserRow :=
  { id := id
    name := jsOr body.name ""
    email := jsOr body.email ""
    password := some (jsOr body.password "")
    avatar := none
    bio := some (jsOr body.bio "")
    skills_known := .str (stringifyJson k)
    skills_to_learn := .str (stringifyJson l)
    discord_link := some (jsOr body.discordLink "")
    rating := 5 }

/-- In the update branch skills are validated when present
(`skillsKnown !== undefined`), regardless of truthiness. -/
def putValidatePresent (v : Option Json) : Except String Json :=
  match v with
  | some j => validateSkillsArray j
  | none => .ok (.arr [])

/-- `PUT /api/users/:id`: when no row has the id, validate (by truthiness)
and insert, then re-SELECT and answer 200 with the mapped row; a duplicate
email makes the INSERT throw, which the catch block maps to 500.  When a
row exists, skills supplied in the body (presence, `!== undefined`) are
validated first (400 on failure); the UPDATE statement then built is
`putUpdateSql`, whose text MySQL rejects as a syntax error (comma before
`WHERE`), so the update branch always ends in the 500 of the catch
block. -/
def putUsersHandler (db : List UserRow) (id : String) (body : UserBody) :
    Resp UserObj × List UserRow :=
  match (selectUsersById db id).head? with
  | none =>
    match postValidate body.skillsKnown, postValidate body.skillsToLearn with
    | .ok k, .ok l =>
      if db.any (fun r => r.email = jsOr body.email "") then (.err 500, db)
      else
        match (selectUsersById (db ++ [mkPutInsertRow id body k l]) id).head? with
        | some row => (.ok (mapUserRow row), db ++ [mkPutInsertRow id body k l])
        | none => (.err 500, db ++ [mkPutInsertRow id body k l])
    | _, _ => (.err 400, db)
  | some _ =>
    match putValidatePresent body.skillsKnown,
        putValidatePresent body.skillsToLearn with
    | .ok _, .ok _ => (.err 500, db)
    | _, _ => (.err 400, db)

/-! ### `POST /api/login` of the production variant
(`Backend/server-production.js` lines 508-540). -/

/-- `POST /api/login` (production): 400 on missing email/password, 401
only when no row has the email; otherwise the login succeeds without
comparing passwords, and a falsy stored password is overwritten with the
supplied one (UPDATE by the user's id) before responding.  The response
body is `mapUserRow(user)` plus a `'simple-token-' + user.id` token; a
throwing `JSON.parse` inside the mapper surfaces as the 500 of the catch
block (after the UPDATE has already run). -/
def loginHandlerProd (db : List UserRow) (email password : String) :
    Resp (UserObj × String) × List UserRow :=
  if email = "" || password = "" then (.err 400, db)
  else
    match (selectUsersByEmail db email).head? with
    | none => (.err 401, db)
    | some user =>
      if falsyStr user.password && !(password = "") then
        match mapUserRowProd { user with password := some password } with
        | some u =>
          (.ok (u, "simple-token-" ++ user.id),
            db.map (fun r =>
              if r.id = user.id then { r with password := some password } else r))
        | none =>
          (.err 500,
            db.map (fun r =>
              if r.id = user.id then { r with password := some password } else r))
      else
        match mapUserRowProd user with
        | some u => (.ok (u, "simple-token-" ++ user.id), db)
        | none => (.err 500, db)

/-! ### Quiz scoring (`POST /api/quizzes/submit`, `Backend/server.js`
lines 836-885). -/

/-- JavaScript `===` on JSON values: primitives compare by value, arrays
and objects by reference — and the compared answer and question values come
from two separate parses, so composite values are never identical. -/
def jsStrictEqPrim : Json → Json → Bool
  | .null, .null => true
  | .bool a, .bool b => a == b
  | .num a, .num b => a == b
  | .str a, .str b => a == b
  | _, _ => false

/-- `===` where either side may be `undefined` (out-of-range index or
missing property); `undefined === undefined` is `true`. -/
def jsStrictEqU : Option Json → Option Json → Bool
  | none, none => true
  | some a, some b => jsStrictEqPrim a b
  | _, _ => false

/-- `questions[i].correctAnswerIndex` (property access on a non-object is
modelled as `undefined`). -/
def correctAnswerIndexOf (q : Json) : Option Json :=
  match q with
  | .obj fields => getField fields "correctAnswerIndex"
  | _ => none

/-- The loop of the submit handler: the number of indices `i` below
`questions.length` with `answers[i] === questions[i].correctAnswerIndex`. -/
def countCorrect (questions answers : List Json) : Nat :=
  (List.range questions.length).countP
    (fun i => jsStrictEqU (answers.get? i)
      ((questions.get? i).bind correctAnswerIndexOf))

/-- `const score = total > 0 ? (correct / total) * 100 : 0` (exact rational
arithmetic models the JS number computation). -/
def quizScore (questions answers : List Json) : Rat :=
  let total := questions.length
  let correct := countCorrect questions answers
  if total > 0 then ((correct : Rat) / (total : Rat)) * 100 else 0

/-- The score the handler writes, starting from the stored `questions`
column: `safeParseJSON(quizResult[0].questions, [])`; a stored value that
is not an array yields length 0 in JS and hence score 0, modelled by the
empty question list. -/
def submittedScore (storedQuestions : JSVal) (answers : List Json) : Rat :=
  quizScore
    (match safeParseJSON storedQuestions (.arr []) with
      | .arr l => l
      | _ => [])
    answers

/-! ### Claim theorems -/

/-- C1 (code divergence): the SQL text the PUT handler passes to `query`
joins the `WHERE id = ?` entry into the comma-separated field list,
producing a comma between the last assignment and `WHERE` — it is not of
the claimed well-formed shape, although the placeholder count does match
the number of supplied values. -/
theorem put_update_sql_has_comma_before_where :
    putUpdateSql false
        = "UPDATE users SET name = ?, bio = ?, skills_known = ?, skills_to_learn = ?, discord_link = ?, WHERE id = ?"
    ∧ putUpdateSql true
        = "UPDATE users SET name = ?, bio = ?, skills_known = ?, skills_to_learn = ?, discord_link = ?, password = ?, WHERE id = ?"
    ∧ putUpdateSql false ≠ claimedPutUpdateSql false
    ∧ putUpdateSql true ≠ claimedPutUpdateSql true
    ∧ countPlaceholders (putUpdateSql false) = putUpdateValuesLen false
    ∧ countPlaceholders (putUpdateSql true) = putUpdateValuesLen true :=
  ⟨rfl, rfl, by decide, by decide, rfl, rfl⟩

/-- Reduction of a failing connection check. -/
theorem checkDatabaseConnection_false (s : DbState) :
    checkDatabaseConnection s false
      = ({ dbConnected := false,
            dbConnectionAttempts := s.dbConnectionAttempts + 1 },
          if s.dbConnectionAttempts + 1 < 5 then some 5000 else none,
          false) := by
  simp [checkDatabaseConnection, maxDbRetries]

/-- Reduction of a successful connection check. -/
theorem checkDatabaseConnection_true (s : DbState) :
    checkDatabaseConnection s true
      = ({ dbConnected := true,
            dbConnectionAttempts := s.dbConnectionAttempts + 1 },
          none, true) := by
  simp [checkDatabaseConnection]

/-- C5: every run of `checkDatabaseConnection` increments the attempt
counter; a successful check sets `dbConnected` and schedules nothing; a
failed check clears `dbConnected` and schedules exactly one 5-second retry
precisely while the counter is below `maxDbRetries = 5`, and none once the
counter has reached 5. -/
theorem checkDatabaseConnection_spec (s : DbState) (ok : Bool) :
    maxDbRetries = 5
    ∧ (checkDatabaseConnection s ok).1.dbConnectionAttempts
        = s.dbConnectionAttempts + 1
    ∧ (ok = true → (checkDatabaseConnection s ok).1.dbConnected = true
        ∧ (checkDatabaseConnection s ok).2.1 = none)
    ∧ (ok = false → (checkDatabaseConnection s ok).1.dbConnected = false
        ∧ ((checkDatabaseConnection s ok).2.1 = some 5000
            ↔ (checkDatabaseConnection s ok).1.dbConnectionAttempts < 5)
        ∧ (5 ≤ (checkDatabaseConnection s ok).1.dbConnectionAttempts
            → (checkDatabaseConnection s ok).2.1 = none)) := by
  cases ok with
  | true =>
    rw [checkDatabaseConnection_true]
    refine ⟨rfl, rfl, ?_, ?_⟩
    · intro _
      exact ⟨rfl, rfl⟩
    · intro h
      cases h
  | false =>
    rw [checkDatabaseConnection_false]
    refine ⟨rfl, rfl, ?_, ?_⟩
    · intro h
      cases h
    · intro _
      refine ⟨rfl, ?_, ?_⟩
      · by_cases h : s.dbConnectionAttempts + 1 < 5 <;> simp [h]
      · intro h
        dsimp only at h ⊢
        rw [if_neg (by omega)]

/-- C5 witness: the first failing check from the initial state clears the
flag and schedules a 5-second retry. -/
theorem checkDatabaseConnection_spec_witness :
    (checkDatabaseConnection ⟨false, 0⟩ false).1.dbConnected = false
    ∧ (checkDatabaseConnection ⟨false, 0⟩ false).2.1 = some 5000 :=
  ⟨((checkDatabaseConnection_spec ⟨false, 0⟩ false).2.2.2 rfl).1,
    ((checkDatabaseConnection_spec ⟨false, 0⟩ false).2.2.2 rfl).2.1.mpr (by decide)⟩

/-- C6 counterexample: over a run of five consecutive failing checks the
scheduled retry delays are 5000 ms each time — the delay sequence is not
strictly increasing, so the retries do not wait longer each time. -/
theorem retry_delays_not_increasing :
    failuresRun 5 ⟨false, 0⟩ = [5000, 5000, 5000, 5000]
    ∧ ¬ List.Chain' (fun a b => a < b) (failuresRun 5 ⟨false, 0⟩) := by
  refine ⟨rfl, ?_⟩
  rw [show failuresRun 5 ⟨false, 0⟩ = [5000, 5000, 5000, 5000] from rfl]
  simp [List.chain'_cons]

/-- C6 (amended): every retry the monitor schedules waits exactly 5000 ms —
the delay between successive retries is constant rather than increasing. -/
theorem retry_delay_constant (s : DbState) (ok : Bool) (d : Nat)
    (h : (checkDatabaseConnection s ok).2.1 = some d) : d = 5000 := by
  cases ok with
  | true =>
    rw [checkDatabaseConnection_true] at h
    cases h
  | false =>
    rw [checkDatabaseConnection_false] at h
    by_cases hc : s.dbConnectionAttempts + 1 < 5
    · rw [if_pos hc] at h
      exact (Option.some.inj h).symm
    · rw [if_neg hc] at h
      cases h

/-- C6 witness: the first scheduled retry has the constant delay. -/
theorem retry_delay_constant_witness :
    (checkDatabaseConnection ⟨false, 0⟩ false).2.1 = some 5000
    ∧ 5000 = 5000 :=
  ⟨by decide, retry_delay_constant ⟨false, 0⟩ false 5000 (by decide)⟩

/-- C7: the production poll intervals are 30000 ms (database) and 60000 ms
(Mistral); each database poll leaves `dbConnected` equal to the check
outcome and logs `lost`/`restored` exactly when the flag changes across
the poll; each Mistral poll sets `mistralConnected` to its outcome. -/
theorem production_polling_spec (s : DbState) (ok m mok : Bool) :
    dbPollIntervalMs = 30000
    ∧ mistralPollIntervalMs = 60000
    ∧ (dbPollStep s ok).1.dbConnected = ok
    ∧ (dbPollStep s ok).2.2.1 = ok
    ∧ ((dbPollStep s ok).2.2.2 = some .lost
        ↔ (s.dbConnected = true ∧ ok = false))
    ∧ ((dbPollStep s ok).2.2.2 = some .restored
        ↔ (s.dbConnected = false ∧ ok = true))
    ∧ ((dbPollStep s ok).2.2.2 = none ↔ s.dbConnected = ok)
    ∧ (testMistralConnection m mok).1 = mok := by
  obtain ⟨c, a⟩ := s
  cases c <;> cases ok <;> cases mok <;>
    simp [dbPollStep, checkDatabaseConnection, testMistralConnection,
      dbPollIntervalMs, mistralPollIntervalMs]

/-- C4: the `query` wrapper of the primary variant throws
`Database connection unavailable` whenever the connection flag is down,
throws a parameter-count-mismatch error when the number of `?` placeholders
differs from the number of parameters, and reaches the pool execution only
when both checks pass. -/
theorem query_guards (sql : String) (n : Nat) :
    query false sql n = .error "Database connection unavailable"
    ∧ (countPlaceholders sql ≠ n →
        query true sql n = .error ("Parameter count mismatch: expected "
          ++ toString (countPlaceholders sql) ++ ", got " ++ toString n))
    ∧ (countPlaceholders sql = n → query true sql n = .ok ()) := by
  refine ⟨rfl, ?_, ?_⟩
  · intro h
    simp [query, h]
  · intro h
    simp [query, h]

/-- C4 witness: concrete statements exercising all three branches. -/
theorem query_guards_witness :
    query false "SELECT 1" 0 = .error "Database connection unavailable"
    ∧ countPlaceholders "SELECT ?" ≠ 0
    ∧ query true "SELECT ?" 0
        = .error "Parameter count mismatch: expected 1, got 0"
    ∧ countPlaceholders "SELECT ?" = 1
    ∧ query true "SELECT ?" 1 = .ok () :=
  ⟨(query_guards "SELECT 1" 0).1, by decide,
    (query_guards "SELECT ?" 0).2.1 (by decide), by decide,
    (query_guards "SELECT ?" 1).2.2 (by decide)⟩

/-- The loop counter never exceeds the number of questions. -/
theorem countCorrect_le (questions answers : List Json) :
    countCorrect questions answers ≤ questions.length := by
  unfold countCorrect
  calc (List.range questions.length).countP _
      ≤ (List.range questions.length).length := List.countP_le_length _
    _ = questions.length := List.length_range _

/-- C10: the score the submit handler writes equals 100 times the number of
correct answers divided by the number of stored questions (0 when there are
none), hence always lies between 0 and 100; parsing the stored questions
column round-trips, so the handler computes this from the stored list. -/
theorem quiz_score_spec (questions answers : List Json) :
    quizScore questions answers
      = (if questions.length = 0 then 0
          else 100 * (countCorrect questions answers : Rat)
            / (questions.length : Rat))
    ∧ 0 ≤ quizScore questions answers
    ∧ quizScore questions answers ≤ 100
    ∧ submittedScore (.str (stringifyJson (.arr questions))) answers
        = quizScore questions answers := by
  have hle := countCorrect_le questions answers
  by_cases h0 : questions.length = 0
  · refine ⟨?_, ?_, ?_, ?_⟩
    · simp [quizScore, h0]
    · simp [quizScore, h0]
    · simp [quizScore, h0]
    · have hs : safeParseJSON (.str (stringifyJson (.arr questions))) (.arr [])
          = .arr questions := by
        simp only [safeParseJSON]
        rw [if_neg (show ¬ stringifyJson (Json.arr questions) = "" from
          fun hcon =>
            stringify_ne_nil (Json.arr questions) (congrArg String.data hcon))]
        rw [parseJson_stringifyJson]
        rfl
      simp [submittedScore, hs]
  · have hpos : 0 < questions.length := Nat.pos_of_ne_zero h0
    have hposQ : (0 : Rat) < (questions.length : Rat) := by
      exact_mod_cast hpos
    refine ⟨?_, ?_, ?_, ?_⟩
    · simp only [quizScore, if_pos hpos]
      rw [if_neg h0]
      field_simp
      ring
    · simp only [quizScore, if_pos hpos]
      positivity
    · simp only [quizScore, if_pos hpos]
      have hdiv : (countCorrect questions answers : Rat)
          / (questions.length : Rat) ≤ 1 := by
        rw [div_le_one hposQ]
        exact_mod_cast hle
      calc (countCorrect questions answers : Rat) / (questions.length : Rat) * 100
          ≤ 1 * 100 := by
            apply mul_le_mul_of_nonneg_right hdiv
            norm_num
        _ = 100 := by norm_num
    · have hs : safeParseJSON (.str (stringifyJson (.arr questions))) (.arr [])
          = .arr questions := by
        simp only [safeParseJSON]
        rw [if_neg (show ¬ stringifyJson (Json.arr questions) = "" from
          fun hcon =>
            stringify_ne_nil (Json.arr questions) (congrArg String.data hcon))]
        rw [parseJson_stringifyJson]
        rfl
      simp [submittedScore, hs]

/-- C8: serialization of validated skills arrays round-trips through
`safeParseJSON`, and `safeParseJSON` returns the supplied default on
`null`, `undefined`, the empty string and any unparseable string. -/
theorem skills_json_roundtrip (d : Json) :
    (∀ s out, validateSkillsArray s = .ok out →
        safeParseJSON (.str (stringifyJson out)) (.arr []) = out)
    ∧ safeParseJSON .null d = d
    ∧ safeParseJSON .undef d = d
    ∧ safeParseJSON (.str "") d = d
    ∧ (∀ v, parseJson v = none → safeParseJSON (.str v) d = d) := by
  refine ⟨?_, rfl, rfl, rfl, ?_⟩
  · intro s out _h
    simp only [safeParseJSON]
    rw [if_neg (show ¬ stringifyJson out = "" from
      fun hcon => stringify_ne_nil out (congrArg String.data hcon))]
    rw [parseJson_stringifyJson]
    rfl
  · intro v h
    by_cases hv : v = ""
    · simp [safeParseJSON, hv]
    · simp [safeParseJSON, hv, h]

/-- A concrete request-shaped skills array. -/
def sampleSkills : Json := .arr [.obj [("name", .str "Go")]]

/-- The normalised form `validateSkillsArray` produces for it. -/
def sampleValidated : Json :=
  .arr [.obj [("name", .str "Go"), ("verified", .bool false),
    ("level", .str "beginner"), ("experienceYears", .num 0),
    ("availability", .arr [])]]

/-- C8 witness: a concrete skills array accepted by the validator whose
serialization parses back to itself, and a concrete unparseable string. -/
theorem skills_json_roundtrip_witness :
    validateSkillsArray sampleSkills = .ok sampleValidated
    ∧ safeParseJSON (.str (stringifyJson sampleValidated)) (.arr [])
        = sampleValidated
    ∧ parseJson "x" = none
    ∧ safeParseJSON (.str "x") (.arr []) = .arr [] :=
  ⟨rfl, (skills_json_roundtrip (.arr [])).1 sampleSkills sampleValidated rfl,
    rfl, (skills_json_roundtrip (.arr [])).2.2.2.2 "x" rfl⟩

/-- The head of a list, when present, is a member. -/
theorem head?_mem {α : Type} (l : List α) (a : α) (h : l.head? = some a) :
    a ∈ l := by
  cases l with
  | nil => cases h
  | cons x xs =>
    simp at h
    simp [h]

/-- Whether the production mapper succeeds does not depend on the password
column. -/
theorem mapUserRowProd_password_update (r : UserRow) (p : Option String) :
    (mapUserRowProd { r with password := p }).isSome
      = (mapUserRowProd r).isSome := by
  rcases r with ⟨id, name, email, pw, av, bio, sk, sl, dl, rat⟩
  unfold mapUserRowProd
  cases parseSkillsCol sk <;> cases parseSkillsCol sl <;> rfl

/-- C2: production `POST /api/login` with non-empty credentials answers 401
exactly when no row has the email; when a row exists the login succeeds
regardless of whether the password matches, and a falsy stored password is
overwritten with the supplied one (rows here parse, as rows of the JSON
columns of the schema do). -/
theorem login_production_spec (db : List UserRow) (email password : String)
    (he : email ≠ "") (hp : password ≠ "")
    (hdb : ∀ r ∈ db, (mapUserRowProd r).isSome = true) :
    ((loginHandlerProd db email password).1.status = 401
      ↔ (selectUsersByEmail db email).head? = none)
    ∧ (∀ u, (selectUsersByEmail db email).head? = some u →
        (loginHandlerProd db email password).1.status = 200)
    ∧ (∀ u, (selectUsersByEmail db email).head? = some u →
        falsyStr u.password = true →
        (loginHandlerProd db email password).2
          = db.map (fun r =>
              if r.id = u.id then { r with password := some password } else r)) := by
  have hguard : (email = "" || password = "") = false := by
    simp [he, hp]
  have hsucc : ∀ u, (selectUsersByEmail db email).head? = some u →
      (loginHandlerProd db email password).1.status = 200 := by
    intro u hu
    have humem : u ∈ db :=
      List.mem_of_mem_filter (head?_mem _ _ hu)
    have husome := hdb u humem
    unfold loginHandlerProd
    rw [if_neg (by simp [he, hp]), hu]
    dsimp only
    by_cases hfp : falsyStr u.password = true
    · rw [if_pos (by simp [hfp, hp])]
      have h2 : (mapUserRowProd { u with password := some password }).isSome
          = true := by
        rw [mapUserRowProd_password_update]
        exact husome
      obtain ⟨uo, huo⟩ := Option.isSome_iff_exists.mp h2
      rw [huo]
      rfl
    · rw [if_neg (by simp [hfp])]
      obtain ⟨uo, huo⟩ := Option.isSome_iff_exists.mp husome
      rw [huo]
      rfl
  refine ⟨?_, hsucc, ?_⟩
  · constructor
    · intro h401
      cases hres : (selectUsersByEmail db email).head? with
      | none => rfl
      | some u =>
        have := hsucc u hres
        omega
    · intro hnone
      unfold loginHandlerProd
      rw [if_neg (by simp [he, hp]), hnone]
      rfl
  · intro u hu hfp
    unfold loginHandlerProd
    rw [if_neg (by simp [he, hp]), hu]
    dsimp only
    rw [if_pos (by simp [hfp, hp])]
    cases hmp : mapUserRowProd { u with password := some password } with
    | none => rfl
    | some uo => rfl

/-- A concrete user row with a NULL password and NULL skills columns. -/
def sampleUserRow : UserRow :=
  { id := "u1", name := "Ada", email := "ada@example.com",
    password := none, avatar := none, bio := none,
    skills_known := .null, skills_to_learn := .null,
    discord_link := none, rating := 5 }

/-- C2 witness: a login against a one-row database with a NULL stored
password succeeds. -/
theorem login_production_spec_witness :
    "ada@example.com" ≠ ""
    ∧ (selectUsersByEmail [sampleUserRow] "ada@example.com").head?
        = some sampleUserRow
    ∧ (loginHandlerProd [sampleUserRow] "ada@example.com" "pw").1.status = 200 :=
  ⟨by decide, rfl,
    (login_production_spec [sampleUserRow] "ada@example.com" "pw"
      (by decide) (by decide) (by decide)).2.1 sampleUserRow rfl⟩

/-- The production mapper preserves the password column verbatim. -/
theorem mapUserRowProd_password (row : UserRow) (u : UserObj)
    (h : mapUserRowProd row = some u) : u.password = row.password := by
  unfold mapUserRowProd at h
  split at h
  · cases h
    rfl
  · cases h

/-- C3: `mapUserRow` (both variants) copies the stored password column into
the returned object, and every successful user-returning response — the two
GET endpoints, POST, the PUT insert branch, and the production login — is a
`mapUserRow` image of a stored row, so it exposes that row's stored
plaintext password. -/
theorem returned_users_contain_password :
    (∀ row, (mapUserRow row).password = row.password)
    ∧ (∀ row u, mapUserRowProd row = some u → u.password = row.password)
    ∧ (∀ conn db body, getUsersHandler conn db = .ok body →
        body = db.map mapUserRow)
    ∧ (∀ conn db i u, getUserByIdHandler conn db i = .ok u →
        ∃ row, row ∈ db ∧ u = mapUserRow row)
    ∧ (∀ db b u db2, postUsersHandler db b = (.created u, db2) →
        ∃ row, row ∈ db2 ∧ u = mapUserRow row)
    ∧ (∀ db i b u db2, putUsersHandler db i b = (.ok u, db2) →
        ∃ row, row ∈ db2 ∧ u = mapUserRow row)
    ∧ (∀ db e p u tok db2, loginHandlerProd db e p = (.ok (u, tok), db2) →
        ∃ row, row ∈ db2 ∧ mapUserRowProd row = some u
          ∧ u.password = row.password) := by
  refine ⟨fun row => rfl, mapUserRowProd_password, ?_, ?_, ?_, ?_, ?_⟩
  · intro conn db body h
    unfold getUsersHandler at h
    split at h
    · cases h
      rfl
    · cases h
  · intro conn db i u h
    unfold getUserByIdHandler at h
    split at h
    · split at h
      · cases h
      · rename_i row hrow
        cases h
        exact ⟨row, List.mem_of_mem_filter (head?_mem _ _ hrow), rfl⟩
    · cases h
  · intro db b u db2 h
    unfold postUsersHandler at h
    split at h
    · cases h
    · split at h
      · rename_i k l hk hl
        split at h
        · cases h
        · split at h
          · rename_i row hrow
            cases h
            exact ⟨row, List.mem_of_mem_filter (head?_mem _ _ hrow), rfl⟩
          · cases h
      · cases h
  · intro db i b u db2 h
    unfold putUsersHandler at h
    split at h
    · split at h
      · rename_i k l hk hl
        split at h
        · cases h
        · split at h
          · rename_i row hrow
            cases h
            exact ⟨row, List.mem_of_mem_filter (head?_mem _ _ hrow), rfl⟩
          · cases h
      · cases h
    · split at h
      · cases h
      · cases h
  · intro db e p u tok db2 h
    unfold loginHandlerProd at h
    split at h
    · cases h
    · split at h
      · cases h
      · rename_i user huser
        split at h
        · split at h
          · rename_i uo huo
            cases h
            refine ⟨{ user with password := some p }, ?_, huo,
              mapUserRowProd_password _ _ huo⟩
            have humem : user ∈ db :=
              List.mem_of_mem_filter (head?_mem _ _ huser)
            have heq : (fun r => if r.id = user.id
                then { r with password := some p } else r) user
                = { user with password := some p } := by
              simp
            exact heq ▸ List.mem_map_of_mem _ humem
          · cases h
        · split at h
          · rename_i uo huo
            cases h
            exact ⟨user, List.mem_of_mem_filter (head?_mem _ _ huser), huo,
              mapUserRowProd_password _ _ huo⟩
          · cases h

/-- C3 witness: fetching a concrete user by id returns its mapped row. -/
theorem returned_users_contain_password_witness :
    getUserByIdHandler true [sampleUserRow] "u1" = .ok (mapUserRow sampleUserRow)
    ∧ ∃ row, row ∈ [sampleUserRow] ∧ mapUserRow sampleUserRow = mapUserRow row :=
  ⟨rfl, returned_users_contain_password.2.2.2.1 true [sampleUserRow] "u1"
    (mapUserRow sampleUserRow) rfl⟩

/-- Re-selecting a freshly inserted row by its id finds exactly it when no
existing row shares the id. -/
theorem select_append_new (db : List UserRow) (row : UserRow)
    (h : ∀ r ∈ db, ¬ r.id = row.id) :
    (selectUsersById (db ++ [row]) row.id).head? = some row := by
  unfold selectUsersById
  rw [List.filter_append]
  have h1 : db.filter (fun r => r.id = row.id) = [] := by
    rw [List.filter_eq_nil_iff]
    intro a ha
    simpa using h a ha
  rw [h1]
  simp

/-- C9: `POST /api/users` answers 400 when id, name or email is missing
(falsy) or a supplied truthy skills field fails validation; 409 when the
insert hits a duplicate key; and otherwise 201 with the created user read
back from the database. -/
theorem post_users_spec (db : List UserRow) (body : UserBody) :
    ((falsyStr body.id || falsyStr body.name || falsyStr body.email) = true →
        postUsersHandler db body = (.err 400, db))
    ∧ ((falsyStr body.id || falsyStr body.name || falsyStr body.email) = false →
        ∀ e, (postValidate body.skillsKnown = .error e
            ∨ postValidate body.skillsToLearn = .error e) →
          (postUsersHandler db body).1.status = 400)
    ∧ (∀ k l,
        (falsyStr body.id || falsyStr body.name || falsyStr body.email) = false →
        postValidate body.skillsKnown = .ok k →
        postValidate body.skillsToLearn = .ok l →
        insertDup db body = true →
        postUsersHandler db body = (.err 409, db))
    ∧ (∀ k l,
        (falsyStr body.id || falsyStr body.name || falsyStr body.email) = false →
        postValidate body.skillsKnown = .ok k →
        postValidate body.skillsToLearn = .ok l →
        insertDup db body = false →
        postUsersHandler db body
          = (.created (mapUserRow (mkUserRow body k l)),
              db ++ [mkUserRow body k l])) := by
  refine ⟨?_, ?_, ?_, ?_⟩
  · intro hf
    unfold postUsersHandler
    rw [if_pos hf]
  · intro hf e hor
    unfold postUsersHandler
    rw [if_neg (by rw [hf]; exact fun hcon => by cases hcon)]
    rcases hor with he | he
    · rw [he]
      cases hl : postValidate body.skillsToLearn <;> rfl
    · rw [he]
      cases hk : postValidate body.skillsKnown <;> rfl
  · intro k l hf hk hl hdup
    unfold postUsersHandler
    rw [if_neg (by rw [hf]; exact fun hcon => by cases hcon), hk, hl]
    dsimp only
    rw [if_pos hdup]
  · intro k l hf hk hl hdup
    unfold postUsersHandler
    rw [if_neg (by rw [hf]; exact fun hcon => by cases hcon), hk, hl]
    dsimp only
    rw [if_neg (by rw [hdup]; exact fun hcon => by cases hcon)]
    have hnodup : ∀ r ∈ db, ¬ r.id = (mkUserRow body k l).id := by
      intro r hr
      have := (List.any_eq_false.mp hdup) r hr
      intro hcon
      apply this
      simp only [insertDup] at this ⊢
      simp [mkUserRow] at hcon
      simp [hcon]
    have hsel := select_append_new db (mkUserRow body k l) hnodup
    have hid : (mkUserRow body k l).id = body.id.getD "" := rfl
    rw [hid] at hsel
    rw [hsel]

/-- A concrete creation request without skills fields. -/
def sampleBody : UserBody :=
  { id := some "u2", name := some "Bo", email := some "bo@example.com",
    password := none, bio := none, skillsKnown := none, skillsToLearn := none,
    discordLink := none }

/-- C9 witness: creating a concrete user in an empty database answers 201
with the mapped inserted row. -/
theorem post_users_spec_witness :
    (falsyStr sampleBody.id || falsyStr sampleBody.name
        || falsyStr sampleBody.email) = false
    ∧ postValidate sampleBody.skillsKnown = .ok (.arr [])
    ∧ insertDup [] sampleBody = false
    ∧ postUsersHandler [] sampleBody
        = (.created (mapUserRow (mkUserRow sampleBody (.arr []) (.arr []))),
            [mkUserRow sampleBody (.arr []) (.arr [])]) :=
  ⟨by decide, rfl, rfl,
    (post_users_spec [] sampleBody).2.2.2 (.arr []) (.arr [])
      (by decide) rfl rfl rfl⟩
